import Mathlib

/-!
Verification development for the dbdrill repository (a PostgreSQL database
drilling TUI).  The definitions below are a shallow embedding of the Rust
sources:

* `model.rs`    — configuration data model and load-time validation,
* `to_sql.rs`   — text → SQL parameter and JSON → SQL parameter coercion,
* `json_helpers.rs` — the JSON cardinality check `extract_single_value`,
* `sql_value_as_string.rs` — SQL cell → display-string decoding,
* `tui.rs`      — query execution (`on_query_helper`) and link resolution
  (`on_pick_link_helper`).

Rust `HashMap`s are embedded as association lists (`lookupA` is `HashMap::get`
restricted to the unique-key maps the program builds; list order stands in for
the map's iteration order).  External library parsers (Rust `FromStr` for the
numeric types, `serde_json`, `jiff`, `uuid`, `jsonpath_rust`) are modelled as
executable recognizers faithful to the success/failure behaviour the program
depends on; values whose bit-level semantics are irrelevant to the program's
control flow (floats, timestamps, UUIDs) are carried as uninterpreted tokens.
The database connection is a function parameter, so that theorems can quantify
over every possible database response.
-/

namespace Dbdrill

/-- Result of a Rust function that may return `Err` or may `panic!`/`todo!`.
`fatal` models a panic (`expect`, `todo!`), which aborts rather than being a
recoverable `Result::Err`. -/
inductive RunResult (α : Type) where
  | ok (val : α)
  | err (msg : String)
  | fatal (msg : String)
deriving DecidableEq

/-- `anyhow`'s `.context(msg)` / `.with_context(|| msg)`: prepend a context
line to an error.  The full context chain is modelled as one colon-joined
string, which is how the program surfaces it (Debug-printing the error). -/
def withContext (ctx : String) : Except String α → Except String α
  | .ok a => .ok a
  | .error e => .error (ctx ++ ": " ++ e)

/-- `HashMap::get` on the association lists standing in for the program's
string-keyed maps (first matching key wins; the program's maps have unique
keys). -/
def lookupA {α : Type} : List (String × α) → String → Option α
  | [], _ => none
  | (k, v) :: rest, key => if k = key then some v else lookupA rest key

/-- Rust `str::split(',')` : splits on every comma; the empty string yields
one empty field, `"a,b,c"` yields three fields. -/
def splitCommaChars : List Char → List (List Char)
  | [] => [[]]
  | c :: rest =>
    if c = ',' then [] :: splitCommaChars rest
    else
      match splitCommaChars rest with
      | f :: r => (c :: f) :: r
      | [] => [[c]]

def splitComma (s : String) : List String :=
  (splitCommaChars s.toList).map (fun cs => String.mk cs)

/-- `Iterator::collect::<Result<Vec<_>, _>>()` over `Option`-valued element
parsers: all elements must parse, the first failure fails the whole list. -/
def collectParsed {α : Type} (f : String → Option α) : List String → Option (List α)
  | [] => some []
  | s :: rest =>
    match f s with
    | none => none
    | some v => (collectParsed f rest).map (v :: ·)

/-- `Iterator::collect::<Result<Vec<_>, _>>()` over `Except`-valued element
converters (first error short-circuits). -/
def collectE {α β : Type} (f : α → Except String β) : List α → Except String (List β)
  | [] => .ok []
  | a :: rest =>
    match f a with
    | .error e => .error e
    | .ok b =>
      match collectE f rest with
      | .error e => .error e
      | .ok bs => .ok (b :: bs)

/-! ## JSON values (model of `serde_json::Value`)

JSON numbers are modelled as integers (`serde_json` distinguishes
i64/u64/f64; the program only ever consumes numbers through `as_i64` and
`as_f64`, and no claim depends on non-integral numbers, which floating-point
semantics would make unstatable). -/

inductive Json where
  | null
  | bool (b : Bool)
  | num (n : Int)
  | str (s : String)
  | arr (elems : List Json)
  | obj (fields : List (String × Json))

/-- `serde_json::Value::as_bool`. -/
def Json.asBool : Json → Option Bool
  | .bool b => some b
  | _ => none

/-- `serde_json::Value::as_i64` (integers in the i64 range). -/
def Json.asI64 : Json → Option Int
  | .num n => if -(2 ^ 63) ≤ n ∧ n ≤ 2 ^ 63 - 1 then some n else none
  | _ => none

/-- `serde_json::Value::as_str`. -/
def Json.asStr : Json → Option String
  | .str s => some s
  | _ => none

/-- Uninterpreted floating-point value: the program never inspects float
values, so an `f32`/`f64` is carried as its origin (the parsed text, or the
integer a JSON number converted from via `as_f64`). -/
inductive FloatVal where
  | ofString (tok : String)
  | ofInt (n : Int)
deriving DecidableEq

mutual
/-- `serde_json::Value`'s `Debug` rendering (used by the `{:?}` format
specifier in the program's error messages). -/
def Json.debugStr : Json → String
  | .null => "Null"
  | .bool b => "Bool(" ++ toString b ++ ")"
  | .num n => "Number(" ++ toString n ++ ")"
  | .str s => "String(\"" ++ s ++ "\")"
  | .arr elems => "Array [" ++ Json.debugStrList elems ++ "]"
  | .obj fields => "Object \x7b" ++ Json.debugStrFields fields ++ "\x7d"

def Json.debugStrList : List Json → String
  | [] => ""
  | [j] => Json.debugStr j
  | j :: rest => Json.debugStr j ++ ", " ++ Json.debugStrList rest

def Json.debugStrFields : List (String × Json) → String
  | [] => ""
  | [(k, v)] => "\"" ++ k ++ "\": " ++ Json.debugStr v
  | (k, v) :: rest => "\"" ++ k ++ "\": " ++ Json.debugStr v ++ ", " ++ Json.debugStrFields rest
end

mutual
/-- `serde_json::Value`'s `Display` rendering (compact serialization), used
when a JSONB cell is decoded to a display string. -/
def Json.compact : Json → String
  | .null => "null"
  | .bool b => toString b
  | .num n => toString n
  | .str s => "\"" ++ s ++ "\""
  | .arr elems => "[" ++ Json.compactList elems ++ "]"
  | .obj fields => "\x7b" ++ Json.compactFields fields ++ "\x7d"

def Json.compactList : List Json → String
  | [] => ""
  | [j] => Json.compact j
  | j :: rest => Json.compact j ++ "," ++ Json.compactList rest

def Json.compactFields : List (String × Json) → String
  | [] => ""
  | [(k, v)] => "\"" ++ k ++ "\":" ++ Json.compact v
  | (k, v) :: rest => "\"" ++ k ++ "\":" ++ Json.compact v ++ "," ++ Json.compactFields rest
end

/-! ## Models of the external scalar parsers -/

/-- Rust `bool::from_str`: exactly `"true"` or `"false"`. -/
def parseBoolRust (s : String) : Option Bool :=
  if s = "true" then some true
  else if s = "false" then some false
  else none

/-- Digit run to its value; `none` when empty or containing a non-digit. -/
def digitsToNat (cs : List Char) : Option Nat :=
  if cs.isEmpty then none
  else if cs.all Char.isDigit then
    some (cs.foldl (fun a c => a * 10 + (c.toNat - 48)) 0)
  else none

/-- Rust `iN::from_str`: optional single sign, one or more ASCII digits,
value within `[lo, hi]` (out of range is a parse error, as in Rust). -/
def parseIntRust (lo hi : Int) (s : String) : Option Int :=
  let (sign, rest) :=
    match s.toList with
    | '+' :: r => ((1 : Int), r)
    | '-' :: r => ((-1 : Int), r)
    | r => ((1 : Int), r)
  match digitsToNat rest with
  | none => none
  | some n =>
    let v : Int := sign * n
    if lo ≤ v ∧ v ≤ hi then some v else none

def parseI16 : String → Option Int := parseIntRust (-(2 ^ 15)) (2 ^ 15 - 1)
def parseI32 : String → Option Int := parseIntRust (-(2 ^ 31)) (2 ^ 31 - 1)
def parseI64 : String → Option Int := parseIntRust (-(2 ^ 63)) (2 ^ 63 - 1)

/-- Exponent suffix of the Rust float grammar: empty, or `e`/`E` (already
lowercased) with an optional sign and at least one digit. -/
def floatExpPart : List Char → Bool
  | [] => true
  | 'e' :: r =>
    let r2 := match r with
      | '+' :: r2 => r2
      | '-' :: r2 => r2
      | r2 => r2
    let ds := r2.takeWhile Char.isDigit
    !ds.isEmpty && (r2.drop ds.length).isEmpty
  | _ => false

/-- Mantissa (with optional fraction and exponent) of the Rust float
grammar. -/
def floatMantExp (cs : List Char) : Bool :=
  let ds := cs.takeWhile Char.isDigit
  let rest := cs.drop ds.length
  match rest with
  | [] => !ds.isEmpty
  | '.' :: rest2 =>
    let ds2 := rest2.takeWhile Char.isDigit
    let rest3 := rest2.drop ds2.length
    (!ds.isEmpty || !ds2.isEmpty) && floatExpPart rest3
  | 'e' :: _ => !ds.isEmpty && floatExpPart rest
  | _ => false

/-- Rust `f32::from_str`/`f64::from_str` acceptance: optional sign, then
`inf`/`infinity`/`nan` (case-insensitive) or a decimal mantissa with optional
exponent.  In particular the empty string is rejected. -/
def isValidFloatLit (s : String) : Bool :=
  let cs := s.toList.map Char.toLower
  let cs := match cs with
    | '+' :: r => r
    | '-' :: r => r
    | r => r
  if cs = "inf".toList || cs = "infinity".toList || cs = "nan".toList then true
  else floatMantExp cs

def parseFloatRust (s : String) : Option FloatVal :=
  if isValidFloatLit s then some (.ofString s) else none

/-- Model of `serde_json::from_str`, restricted to the JSON scalars the
development exercises (null, booleans, integers, escape-free strings);
anything else — including composite JSON, which the program's comma-splitting
would mangle anyway — is a parse error.  The empty string is a parse error,
as in `serde_json`. -/
def serdeFromStr (s : String) : Option Json :=
  let t := s.trim
  if t = "null" then some .null
  else if t = "true" then some (.bool true)
  else if t = "false" then some (.bool false)
  else
    match t.toList with
    | '"' :: rest =>
      if rest ≠ [] && rest.getLast? = some '"'
          && (rest.dropLast.all fun c => c ≠ '"' && c ≠ '\\') then
        some (.str (String.mk rest.dropLast))
      else none
    | cs =>
      let (sign, ds) :=
        match cs with
        | '-' :: r => ((-1 : Int), r)
        | r => ((1 : Int), r)
      if !ds.isEmpty && ds.all Char.isDigit && (ds = ['0'] || ds.head? ≠ some '0') then
        some (.num (sign * ((digitsToNat ds).getD 0)))
      else none

/-- Model of `jiff::Timestamp::from_str`, restricted to the
`YYYY-MM-DDTHH:MM:SSZ` shape; in particular the empty string is rejected. -/
def isTimestampLit (s : String) : Bool :=
  match s.toList with
  | [y1, y2, y3, y4, '-', m1, m2, '-', d1, d2, 'T',
     h1, h2, ':', mi1, mi2, ':', s1, s2, 'Z'] =>
    [y1, y2, y3, y4, m1, m2, d1, d2, h1, h2, mi1, mi2, s1, s2].all Char.isDigit
  | _ => false

def isHexDig (c : Char) : Bool :=
  c.isDigit || ('a' ≤ c && c ≤ 'f') || ('A' ≤ c && c ≤ 'F')

/-- Model of `uuid::Uuid::from_str`, restricted to the hyphenated
8-4-4-4-12 form; the empty string is rejected. -/
def isUuidLit (s : String) : Bool :=
  let cs := s.toList
  cs.length = 36 &&
    (cs.enum.all fun (i, c) =>
      if i = 8 || i = 13 || i = 18 || i = 23 then c = '-' else isHexDig c)

/-! ## Parameter type vocabularies

The snapshot's `model.rs` declares `SearchParamType` with exactly the two
constructors `Integer` (`"integer"`) and `TextArray` (`"text[]"`), and the
engine (`tui.rs`) dispatches over exactly those.  The conversion module
`to_sql.rs`, however, matches exhaustively over a much larger vocabulary of
constructors; since a Rust `match` must be exhaustive, the enumeration that
module was written against consists of exactly the 23 tags its arms name.
Both vocabularies are embedded, in namespaces mirroring their modules. -/

namespace Model

/-- `model.rs` — `enum SearchParamType` (two constructors). -/
inductive SearchParamType where
  | Integer
  | TextArray
deriving DecidableEq, Fintype

end Model

namespace ToSql

/-- The `SearchParamType` vocabulary over which `to_sql.rs`'s
`sql_value_from_string` and `sql_value_from_json_slice` dispatch
exhaustively: exactly the 23 constructors named by their match arms. -/
inductive SearchParamType where
  | Bool | BoolArray
  | Float4 | Float4Array
  | Float8 | Float8Array
  | Int2 | Int2Array
  | Int4 | Int4Array
  | Int8 | Int8Array
  | Json | Jsonb | JsonbArray
  | Text | TextArray
  | Timestamptz | TimestamptzArray
  | Uuid | UuidArray
  | Varchar | VarcharArray
deriving DecidableEq, Fintype

/-- The type tag used in `to_sql.rs`'s error messages (note the `Jsonb`
family reports itself as `json`). -/
def tyTag : SearchParamType → String
  | .Bool => "bool" | .BoolArray => "bool[]"
  | .Float4 => "float4" | .Float4Array => "float4[]"
  | .Float8 => "float8" | .Float8Array => "float8[]"
  | .Int2 => "int2" | .Int2Array => "int2[]"
  | .Int4 => "int4" | .Int4Array => "int4[]"
  | .Int8 => "int8" | .Int8Array => "int8[]"
  | .Json => "json" | .Jsonb => "json" | .JsonbArray => "json[]"
  | .Text => "text" | .TextArray => "text[]"
  | .Timestamptz => "timestamptz" | .TimestamptzArray => "timestamptz[]"
  | .Uuid => "uuid" | .UuidArray => "uuid[]"
  | .Varchar => "varchar" | .VarcharArray => "varchar[]"

/-- The array constructors of the `to_sql.rs` vocabulary. -/
def isArrayTy : SearchParamType → Bool
  | .BoolArray | .Float4Array | .Float8Array | .Int2Array | .Int4Array
  | .Int8Array | .JsonbArray | .TextArray | .TimestamptzArray
  | .UuidArray | .VarcharArray => true
  | _ => false

/-- The scalar constructors of the `to_sql.rs` vocabulary. -/
def isScalarTy (t : SearchParamType) : Bool := !(isArrayTy t)

/-- The numeric types (integer and float widths, scalar and array). -/
def isNumeric : SearchParamType → Bool
  | .Float4 | .Float4Array | .Float8 | .Float8Array
  | .Int2 | .Int2Array | .Int4 | .Int4Array | .Int8 | .Int8Array => true
  | _ => false

/-- The scalar element type of each array type (the parser its elements go
through); `none` on scalars.  The single `JsonbArray` tag's elements go
through the `Json`/`Jsonb` scalar parser. -/
def elemTy : SearchParamType → Option SearchParamType
  | .BoolArray => some .Bool
  | .Float4Array => some .Float4
  | .Float8Array => some .Float8
  | .Int2Array => some .Int2
  | .Int4Array => some .Int4
  | .Int8Array => some .Int8
  | .JsonbArray => some .Jsonb
  | .TextArray => some .Text
  | .TimestamptzArray => some .Timestamptz
  | .UuidArray => some .Uuid
  | .VarcharArray => some .Varchar
  | _ => none

end ToSql

/-! ## SQL parameter values

Model of the `Box<dyn postgres::types::ToSql + Sync>` values the program
builds: a tagged scalar, a homogeneous array of scalars, or the two nullable
shapes the link resolver produces. -/

inductive SqlScalar where
  | b (v : Bool)
  | f4 (v : FloatVal)
  | f8 (v : FloatVal)
  | i2 (v : Int)
  | i4 (v : Int)
  | i8 (v : Int)
  | js (v : Json)
  | str (v : String)
  | ts (tok : String)
  | uuid (tok : String)

inductive SqlValue where
  | scalar (v : SqlScalar)
  | arr (vs : List SqlScalar)
  | optStr (v : Option String)
  | optI4 (v : Option Int)

/-- The scalar parser of each scalar type of the `to_sql.rs` vocabulary
(`Text`/`Varchar` are the infallible pass-through). -/
def scalarParse : ToSql.SearchParamType → String → Option SqlScalar
  | .Bool, s => (parseBoolRust s).map .b
  | .Float4, s => (parseFloatRust s).map .f4
  | .Float8, s => (parseFloatRust s).map .f8
  | .Int2, s => (parseI16 s).map .i2
  | .Int4, s => (parseI32 s).map .i4
  | .Int8, s => (parseI64 s).map .i8
  | .Json, s => (serdeFromStr s).map .js
  | .Jsonb, s => (serdeFromStr s).map .js
  | .Text, s => some (.str s)
  | .Varchar, s => some (.str s)
  | .Timestamptz, s => if isTimestampLit s then some (.ts s) else none
  | .Uuid, s => if isUuidLit s then some (.uuid s) else none
  | _, _ => none

/-- `to_sql.rs` — `sql_value_from_string`: convert one text input to a typed
SQL parameter.  Scalar arms parse the whole string with the type's parser;
array arms split on commas and parse each field, the first failure failing
the whole conversion with the `anyhow` context message (which echoes the
whole input and the array type tag). -/
def sql_value_from_string (str_val : String) (ty : ToSql.SearchParamType) :
    Except String SqlValue :=
  match ty with
  | .Bool =>
    match parseBoolRust str_val with
    | some b => .ok (.scalar (.b b))
    | none => .error ("error parsing value as bool: " ++ str_val)
  | .BoolArray =>
    match collectParsed (fun s => (parseBoolRust s).map .b) (splitComma str_val) with
    | some vs => .ok (.arr vs)
    | none => .error ("error parsing value as bool[]: " ++ str_val)
  | .Float4 =>
    match parseFloatRust str_val with
    | some v => .ok (.scalar (.f4 v))
    | none => .error ("error parsing value as float4: " ++ str_val)
  | .Float4Array =>
    match collectParsed (fun s => (parseFloatRust s).map .f4) (splitComma str_val) with
    | some vs => .ok (.arr vs)
    | none => .error ("error parsing value as float4[]: " ++ str_val)
  | .Float8 =>
    match parseFloatRust str_val with
    | some v => .ok (.scalar (.f8 v))
    | none => .error ("error parsing value as float8: " ++ str_val)
  | .Float8Array =>
    match collectParsed (fun s => (parseFloatRust s).map .f8) (splitComma str_val) with
    | some vs => .ok (.arr vs)
    | none => .error ("error parsing value as float8[]: " ++ str_val)
  | .Int2 =>
    match parseI16 str_val with
    | some n => .ok (.scalar (.i2 n))
    | none => .error ("error parsing value as int2: " ++ str_val)
  | .Int4 =>
    match parseI32 str_val with
    | some n => .ok (.scalar (.i4 n))
    | none => .error ("error parsing value as int4: " ++ str_val)
  | .Int2Array =>
    match collectParsed (fun s => (parseI16 s).map .i2) (splitComma str_val) with
    | some vs => .ok (.arr vs)
    | none => .error ("error parsing value as int2[]: " ++ str_val)
  | .Int4Array =>
    match collectParsed (fun s => (parseI32 s).map .i4) (splitComma str_val) with
    | some vs => .ok (.arr vs)
    | none => .error ("error parsing value as int4[]: " ++ str_val)
  | .Int8 =>
    match parseI64 str_val with
    | some n => .ok (.scalar (.i8 n))
    | none => .error ("error parsing value as int8: " ++ str_val)
  | .Int8Array =>
    match collectParsed (fun s => (parseI64 s).map .i8) (splitComma str_val) with
    | some vs => .ok (.arr vs)
    | none => .error ("error parsing value as int8[]: " ++ str_val)
  | .Json =>
    match serdeFromStr str_val with
    | some j => .ok (.scalar (.js j))
    | none => .error ("error parsing value as json: " ++ str_val)
  | .Jsonb =>
    match serdeFromStr str_val with
    | some j => .ok (.scalar (.js j))
    | none => .error ("error parsing value as json: " ++ str_val)
  | .JsonbArray =>
    match collectParsed (fun s => (serdeFromStr s).map .js) (splitComma str_val) with
    | some vs => .ok (.arr vs)
    | none => .error ("error parsing value as json[]: " ++ str_val)
  | .Text => .ok (.scalar (.str str_val))
  | .TextArray => .ok (.arr ((splitComma str_val).map .str))
  | .Timestamptz =>
    if isTimestampLit str_val then .ok (.scalar (.ts str_val))
    else .error ("error parsing value as timestamptz: " ++ str_val)
  | .TimestamptzArray =>
    match collectParsed
        (fun s => if isTimestampLit s then some (.ts s) else none)
        (splitComma str_val) with
    | some vs => .ok (.arr vs)
    | none => .error ("error parsing value as timestamptz[]: " ++ str_val)
  | .Uuid =>
    if isUuidLit str_val then .ok (.scalar (.uuid str_val))
    else .error ("error parsing value as uuid: " ++ str_val)
  | .UuidArray =>
    match collectParsed
        (fun s => if isUuidLit s then some (.uuid s) else none)
        (splitComma str_val) with
    | some vs => .ok (.arr vs)
    | none => .error ("error parsing value as uuid[]: " ++ str_val)
  | .Varchar => .ok (.scalar (.str str_val))
  | .VarcharArray => .ok (.arr ((splitComma str_val).map .str))

/-- `json_helpers.rs` — `extract_single_value`: the JSON cardinality check;
also duplicated verbatim at the bottom of `tui.rs`. -/
def extract_single_value (vals : List Json) : Except String Json :=
  match vals with
  | [value] => .ok value
  | _ => .error ("expected 1 result, got " ++ toString vals.length)

/-- The narrowing each scalar arm of `sql_value_from_json_slice` applies to
the single JSON node once the cardinality check has passed. -/
def scalarFromJson (ty : ToSql.SearchParamType) (v : Json) : RunResult SqlValue :=
  match ty with
  | .Bool =>
    match v.asBool with
    | some b => .ok (.scalar (.b b))
    | none => .err ("value is not a boolean: " ++ v.debugStr)
  | .Float4 =>
    match v.asI64 with
    | some n => .ok (.scalar (.f4 (.ofInt n)))
    | none => .err ("value is not a number: " ++ v.debugStr)
  | .Float8 =>
    match v.asI64 with
    | some n => .ok (.scalar (.f8 (.ofInt n)))
    | none => .err ("value is not a number: " ++ v.debugStr)
  | .Int2 =>
    match v.asI64 with
    | some n =>
      if -(2 ^ 15) ≤ n ∧ n ≤ 2 ^ 15 - 1 then .ok (.scalar (.i2 n))
      else .err ("value overflows target type: " ++ v.debugStr)
    | none => .err ("value is not a number: " ++ v.debugStr)
  | .Int4 =>
    match v.asI64 with
    | some n =>
      if -(2 ^ 31) ≤ n ∧ n ≤ 2 ^ 31 - 1 then .ok (.scalar (.i4 n))
      else .err ("value overflows target type: " ++ v.debugStr)
    | none => .err ("value is not a number: " ++ v.debugStr)
  | .Int8 =>
    match v.asI64 with
    | some n => .ok (.scalar (.i8 n))
    | none => .err ("value is not a number: " ++ v.debugStr)
  | .Json => .ok (.scalar (.js v))
  | .Jsonb => .ok (.scalar (.js v))
  | .Text =>
    match v.asStr with
    | some s => .ok (.scalar (.str s))
    | none => .err ("value is not a string: " ++ v.debugStr)
  | .Varchar =>
    match v.asStr with
    | some s => .ok (.scalar (.str s))
    | none => .err ("value is not a string: " ++ v.debugStr)
  | .Timestamptz =>
    match v.asStr with
    | some s =>
      if isTimestampLit s then .ok (.scalar (.ts s))
      else .err ("value is not a valid timestamp: " ++ v.debugStr)
    | none => .err ("value is not a string: " ++ v.debugStr)
  | .Uuid =>
    match v.asStr with
    | some s =>
      if isUuidLit s then .ok (.scalar (.uuid s))
      else .err ("value is not a valid uuid: " ++ v.debugStr)
    | none => .err ("value is not a string: " ++ v.debugStr)
  | _ => .err "not a scalar type"

/-- Per-element conversions of the array arms of `sql_value_from_json_slice`
(each element carries its own error message). -/
def jsonElemConv (ty : ToSql.SearchParamType) (v : Json) : Except String SqlScalar :=
  match ty with
  | .BoolArray =>
    match v.asBool with
    | some b => .ok (.b b)
    | none => .error ("array element is not a boolean: " ++ v.debugStr)
  | .Float4Array =>
    match v.asI64 with
    | some n => .ok (.f4 (.ofInt n))
    | none => .error ("array element is not a number: " ++ v.debugStr)
  | .Float8Array =>
    match v.asI64 with
    | some n => .ok (.f8 (.ofInt n))
    | none => .error ("array element is not a number: " ++ v.debugStr)
  | .Int4Array =>
    match v.asI64 with
    | some n =>
      if -(2 ^ 31) ≤ n ∧ n ≤ 2 ^ 31 - 1 then .ok (.i4 n)
      else .error ("array element overflows target type: " ++ v.debugStr)
    | none => .error ("array element is not a number: " ++ v.debugStr)
  | .Int8Array =>
    match v.asI64 with
    | some n => .ok (.i8 n)
    | none => .error ("array element is not a number: " ++ v.debugStr)
  | .TextArray =>
    match v.asStr with
    | some s => .ok (.str s)
    | none => .error ("array element is not a string: " ++ v.debugStr)
  | .VarcharArray =>
    match v.asStr with
    | some s => .ok (.str s)
    | none => .error ("array element is not a string: " ++ v.debugStr)
  | .TimestamptzArray =>
    match v.asStr with
    | some s =>
      if isTimestampLit s then .ok (.ts s)
      else .error ("array element is not a valid timestamp: " ++ v.debugStr)
    | none => .error ("array element is not a string: " ++ v.debugStr)
  | .UuidArray =>
    match v.asStr with
    | some s =>
      if isUuidLit s then .ok (.uuid s)
      else .error ("array element is not a valid uuid: " ++ v.debugStr)
    | none => .error ("array element is not a string: " ++ v.debugStr)
  | _ => .error "not an array type"

/-- `to_sql.rs` — `sql_value_from_json_slice`: convert the JSON nodes a
JSONPath produced to a typed SQL parameter.  Every scalar arm first runs
`extract_single_value` (the cardinality check) and then narrows the single
node; array arms convert every node independently with no length constraint.
`Int2Array` is `todo!()` in the source, i.e. a panic. -/
def sql_value_from_json_slice (vals : List Json) (ty : ToSql.SearchParamType) :
    RunResult SqlValue :=
  match ty with
  | .Bool | .Float4 | .Float8 | .Int2 | .Int4 | .Int8 | .Json | .Jsonb
  | .Text | .Varchar | .Timestamptz | .Uuid =>
    match extract_single_value vals with
    | .error e => .err e
    | .ok v => scalarFromJson ty v
  | .Int2Array => .fatal "not yet implemented"
  | .JsonbArray => .ok (.arr (vals.map .js))
  | .BoolArray | .Float4Array | .Float8Array | .Int4Array | .Int8Array
  | .TextArray | .VarcharArray | .TimestamptzArray | .UuidArray =>
    match collectE (jsonElemConv ty) vals with
    | .error e => .err e
    | .ok vs => .ok (.arr vs)

/-! ## JSONPath (model of the external `jsonpath_rust` crate)

A path is `$` followed by member steps `.name` and index steps `[i]`; this
restricted grammar stands in for the external parser — the program only
depends on a path either parsing or not, and on evaluation returning a list
of nodes. -/

inductive PathStep where
  | member (name : String)
  | index (i : Nat)
deriving DecidableEq

def identChar (c : Char) : Bool := c.isAlphanum || c = '_'

/-- Fuel-based step parser (each step consumes at least one character, so
fuel = remaining length suffices). -/
def parseStepsF : Nat → List Char → Option (List PathStep)
  | _, [] => some []
  | 0, _ :: _ => none
  | fuel + 1, c :: rest =>
    if c = '.' then
      let name := rest.takeWhile identChar
      if name.isEmpty then none
      else (parseStepsF fuel (rest.drop name.length)).map (PathStep.member (String.mk name) :: ·)
    else if c = '[' then
      let ds := rest.takeWhile Char.isDigit
      if ds.isEmpty then none
      else
        match rest.drop ds.length with
        | ']' :: rest2 => (parseStepsF fuel rest2).map (PathStep.index ((digitsToNat ds).getD 0) :: ·)
        | _ => none
    else none

def parsePath (s : String) : Option (List PathStep) :=
  match s.toList with
  | '$' :: rest => parseStepsF rest.length rest
  | _ => none

/-- `jsonpath_rust::parser::parse_json_path` (validation only). -/
def parse_json_path (s : String) : Except String Unit :=
  match parsePath s with
  | some _ => .ok ()
  | none => .error ("invalid JSONPath: " ++ s)

def evalStep (vs : List Json) : PathStep → List Json
  | .member name => vs.flatMap fun v =>
      match v with
      | .obj fields => (lookupA fields name).toList
      | _ => []
  | .index i => vs.flatMap fun v =>
      match v with
      | .arr elems => (elems.get? i).toList
      | _ => []

/-- `serde_json::Value::query` via `jsonpath_rust`: evaluate a path against a
JSON document, yielding the matched nodes. -/
def jsonQuery (doc : Json) (path : String) : Except String (List Json) :=
  match parsePath path with
  | none => .error ("invalid JSONPath: " ++ path)
  | some steps => .ok (steps.foldl evalStep [doc])

/-! ## Configuration data model (`model.rs`) -/

namespace Model

/-- `model.rs` — `struct SearchParam` (`name`, optional `type`). -/
structure SearchParam where
  name : String
  ty : Option SearchParamType
deriving DecidableEq

/-- `model.rs` — `struct Search` (`query`, ordered `params`). -/
structure Search where
  query : String
  params : List SearchParam
deriving DecidableEq

/-- `model.rs` — `enum ColumnExpression`: a bare column name, or a
`(column, json_path)` pair.  (`tui.rs` refers to this type under its earlier
name `LinkSearchParam`; the shape is identical.) -/
inductive ColumnExpression where
  | name (col : String)
  | jsonPath (col_and_path : String × String)
deriving DecidableEq

/-- `model.rs` — `enum LinkCondition`: equality of a column expression
against a literal string. -/
inductive LinkCondition where
  | eq (expr : ColumnExpression) (literal : String)
deriving DecidableEq

/-- `model.rs` — `struct Link`. -/
structure Link where
  kind : String
  search : String
  search_params : List ColumnExpression
  condition : Option LinkCondition
deriving DecidableEq

/-- `model.rs` — `struct Resource` (its two `HashMap`s as association
lists). -/
structure Resource where
  name : String
  search : List (String × Search)
  links : List (String × Link)
deriving DecidableEq

end Model

/-- The JSONPath checks the `search_params` loop of `validate_resource_link`
performs, with the loop's `enumerate` index in the error context. -/
def validate_link_paths : List Model.ColumnExpression → Nat → Except String Unit
  | [], _ => .ok ()
  | p :: rest, idx =>
    match p with
    | .name _ => validate_link_paths rest (idx + 1)
    | .jsonPath (_, path) =>
      match withContext ("invalid JSONPath expression for search parameter " ++ toString idx)
          (parse_json_path path) with
      | .error e => .error e
      | .ok () => validate_link_paths rest (idx + 1)

/-- `model.rs` — `validate_resource_link`: the link's `kind` must name a
resource, its `search` a search of that resource, arities must agree, and
every JSONPath (in `search_params` and in the `if` condition) must parse. -/
def validate_resource_link (resources : List (String × Model.Resource))
    (link : Model.Link) : Except String Unit :=
  match lookupA resources link.kind with
  | none => .error ("link references a non existing resource " ++ link.kind)
  | some target_resource =>
    match lookupA target_resource.search link.search with
    | none =>
      .error ("referenced resource " ++ link.kind ++ " has no search named " ++ link.search)
    | some target_search =>
      if target_search.params.length ≠ link.search_params.length then
        .error ("referenced search " ++ link.search ++ " has "
          ++ toString target_search.params.length ++ " params but link specifies "
          ++ toString link.search_params.length)
      else
        match validate_link_paths link.search_params 0 with
        | .error e => .error e
        | .ok () =>
          match link.condition with
          | some (.eq (.jsonPath (_, path)) _) =>
            withContext "link condition (\"if\") is an invalid JSONPath expression"
              (parse_json_path path)
          | _ => .ok ()

/-- `model.rs` — `validate_resource_links`: validate each link of a
resource, wrapping failures with the link's name. -/
def validate_resource_links (resources : List (String × Model.Resource)) :
    List (String × Model.Link) → Except String Unit
  | [] => .ok ()
  | (link_name, link) :: rest =>
    match withContext ("error validating link " ++ link_name)
        (validate_resource_link resources link) with
    | .error e => .error e
    | .ok () => validate_resource_links resources rest

/-- The loop body of `validate_resources`, threading the `used_names`
name-uniqueness accumulator. -/
def validate_resources_go (all : List (String × Model.Resource)) :
    List (String × Model.Resource) → List (String × String) → Except String Unit
  | [], _ => .ok ()
  | (resource_id, resource) :: rest, used_names =>
    if resource_id = "" then .error "resource identifiers can't be empty"
    else if resource.name = "" then
      .error ("resource " ++ resource_id ++ " has an empty name")
    else
      match lookupA used_names resource.name with
      | some other_resource_id =>
        .error ("resource " ++ resource_id ++ " has the same name as " ++ other_resource_id)
      | none =>
        match withContext ("error validating " ++ resource_id ++ ".links")
            (validate_resource_links all resource.links) with
        | .error e => .error e
        | .ok () =>
          validate_resources_go all rest ((resource.name, resource_id) :: used_names)

/-- `model.rs` — `validate_resources`: whole-catalog load-time validation
(first failure aborts). -/
def validate_resources (resources : List (String × Model.Resource)) : Except String Unit :=
  validate_resources_go resources resources []

/-- Syntactic well-formedness of all JSONPath strings in the catalog: every
path in any link's `search_params` column expressions and in any link's
condition parses. -/
def allLinkPathsValid (resources : List (String × Model.Resource)) : Bool :=
  resources.all fun kv =>
    kv.2.links.all fun nl =>
      (nl.2.search_params.all fun p =>
        match p with
        | .name _ => true
        | .jsonPath (_, path) => (parse_json_path path).isOk) &&
      (match nl.2.condition with
       | some (.eq (.jsonPath (_, path)) _) => (parse_json_path path).isOk
       | _ => true)

/-! ## Database cells and display decoding (`sql_value_as_string.rs`) -/

/-- The PostgreSQL column types the program distinguishes
(`postgres::types::Type`); every other wire type is `other` with its display
name. -/
inductive PgType where
  | bool
  | int2
  | int4
  | int8
  | jsonb
  | text
  | textArray
  | timestamptz
  | other (name : String)
deriving DecidableEq

/-- A decoded non-null cell value (the post-`FromSql` view of the raw
bytes; timestamps as their display token). -/
inductive PgValue where
  | b (v : Bool)
  | i2 (v : Int)
  | i4 (v : Int)
  | i8 (v : Int)
  | jsonb (v : Json)
  | text (v : String)
  | textArr (v : List String)
  | tstz (tok : String)

/-- Rust `Debug` of `Vec<String>` (used for `text[]` cells). -/
def debugVecString (l : List String) : String :=
  "[" ++ String.intercalate ", " (l.map fun s => "\"" ++ s ++ "\"") ++ "]"

/-- `sql_value_as_string.rs` — `SQLValueAsString::from_sql`: dispatch on the
column type and render the value with its `Display` form; any type outside
the supported eight is the "unsupported type" error.  A type/value mismatch
(impossible on real wire data) is a decode error, as in the `postgres`
primitive decoders. -/
def SQLValueAsString.from_sql (ty : PgType) (raw : PgValue) : Except String String :=
  match ty with
  | .bool => match raw with
    | .b v => .ok (toString v)
    | _ => .error "invalid buffer"
  | .int2 => match raw with
    | .i2 v => .ok (toString v)
    | _ => .error "invalid buffer"
  | .int4 => match raw with
    | .i4 v => .ok (toString v)
    | _ => .error "invalid buffer"
  | .int8 => match raw with
    | .i8 v => .ok (toString v)
    | _ => .error "invalid buffer"
  | .jsonb => match raw with
    | .jsonb v => .ok v.compact
    | _ => .error "invalid buffer"
  | .text => match raw with
    | .text v => .ok v
    | _ => .error "invalid buffer"
  | .textArray => match raw with
    | .textArr v => .ok (debugVecString v)
    | _ => .error "invalid buffer"
  | .timestamptz => match raw with
    | .tstz v => .ok v
    | _ => .error "invalid buffer"
  | .other name => .error ("unsupported type: " ++ name)

/-- `sql_value_as_string.rs` — `SQLValueAsString::from_sql_nullable`: a null
cell is the literal `"<NULL>"`, before any type dispatch. -/
def SQLValueAsString.from_sql_nullable (ty : PgType) (raw : Option PgValue) :
    Except String String :=
  match raw with
  | some val => SQLValueAsString.from_sql ty val
  | none => .ok "<NULL>"

/-- `sql_value_as_string.rs` — `SQLValueAsString::accepts`. -/
def SQLValueAsString.accepts : PgType → Bool
  | .bool | .int2 | .int4 | .int8 | .jsonb | .text | .textArray | .timestamptz => true
  | _ => false

/-! ## Result rows (`postgres::Row`) -/

/-- One column of a result row: its name, wire type, and (possibly null)
value. -/
structure RowCol where
  name : String
  ty : PgType
  cell : Option PgValue

/-- A result row (`postgres::Row` wrapped as `ResultRow` in `tui.rs`). -/
abbrev Row := List RowCol

def findCol (row : Row) (name : String) : Option RowCol :=
  row.find? (fun c => c.name == name)

/-- `Row::try_get::<SQLValueAsString>` by column name: locate the column,
check `accepts`, then decode via `from_sql_nullable`. -/
def tryGetDisplay (row : Row) (name : String) : Except String String :=
  match findCol row name with
  | none => .error ("invalid column name: " ++ name)
  | some c =>
    if SQLValueAsString.accepts c.ty then SQLValueAsString.from_sql_nullable c.ty c.cell
    else .error ("wrong type for column " ++ name)

/-- `Row::try_get::<serde_json::Value>` by column name (accepts JSONB). -/
def tryGetJson (row : Row) (name : String) : Except String Json :=
  match findCol row name with
  | none => .error ("invalid column name: " ++ name)
  | some c =>
    match c.ty, c.cell with
    | .jsonb, some (.jsonb j) => .ok j
    | .jsonb, none => .error ("column " ++ name ++ " is null")
    | _, _ => .error ("wrong type for column " ++ name)

/-- `Row::get::<Option<String>>` (panics on any retrieval error, like
`Row::get`); only reached when the column's type is `TEXT`. -/
def getOptString (row : Row) (name : String) : RunResult (Option String) :=
  match findCol row name with
  | none => .fatal "no such column"
  | some c =>
    match c.ty, c.cell with
    | .text, none => .ok none
    | .text, some (.text s) => .ok (some s)
    | _, _ => .fatal "row value decode error"

/-- `Row::get::<Option<i32>>`; only reached when the column's type is
`INT4`. -/
def getOptI32 (row : Row) (name : String) : RunResult (Option Int) :=
  match findCol row name with
  | none => .fatal "no such column"
  | some c =>
    match c.ty, c.cell with
    | .int4, none => .ok none
    | .int4, some (.i4 n) => .ok (some n)
    | _, _ => .fatal "row value decode error"

/-! ## Query execution and link resolution (`tui.rs`)

The live database connection is abstracted as a function from (query text,
bound parameter list) to either rows or a database error, so theorems can
quantify over every possible database response. -/

/-- The database connection: `postgres::Client::query`. -/
def Db : Type := String → List SqlValue → Except String (List Row)

/-- The per-parameter conversion of `on_query_helper` (`tui.rs`): no
declared type passes the text through; `integer` parses an `i32` with the
parameter-naming error context; `text[]` splits on commas infallibly. -/
def convQueryParam (param : Model.SearchParam) (str_val : String) : Except String SqlValue :=
  match param.ty with
  | none => .ok (.scalar (.str str_val))
  | some .Integer =>
    match parseI32 str_val with
    | some n => .ok (.scalar (.i4 n))
    | none =>
      .error ("error parsing parameter " ++ param.name ++ " as string: " ++ str_val)
  | some .TextArray => .ok (.arr ((splitComma str_val).map .str))

/-- The parameter loop of `on_query_helper`: builds the title fragment and
the bound-value list in step, aborting on the first conversion failure. -/
def queryLoop : List (Model.SearchParam × String) → Nat → String → List SqlValue →
    Except String (String × List SqlValue)
  | [], _, title, acc => .ok (title, acc)
  | (param, str_val) :: rest, idx, title, acc =>
    let title := title ++ (if idx > 0 then ", " else "") ++ param.name ++ "=" ++ str_val
    match convQueryParam param str_val with
    | .error e => .error e
    | .ok v => queryLoop rest (idx + 1) title (acc ++ [v])

/-- `tui.rs` — `on_query_helper`: look up the search, convert every
parameter string (first failure aborts before any database call), then run
the query with the fully converted list and return the title and rows. -/
def on_query_helper (db : Db) (resources : List (String × Model.Resource))
    (resource_id search_id : String) (params_str_values : List String) :
    RunResult (String × List Row) :=
  match lookupA resources resource_id with
  | none => .fatal "invalid resource id"
  | some r =>
    match lookupA r.search search_id with
    | none => .fatal "invalid search id"
    | some s =>
      match queryLoop (s.params.zip params_str_values) 0
          (r.name ++ " / " ++ search_id ++ " (") [] with
      | .error e => .err e
      | .ok (title, param_values) =>
        match db s.query param_values with
        | .error e => .err ("error running SQL query: " ++ e)
        | .ok rows => .ok (title ++ ")", rows)

/-- One `search_params` entry of `on_pick_link_helper`: produce the bound
value and the title fragment for one column expression. -/
def pickParam (row : Row) (param : Model.ColumnExpression)
    (target_param : Model.SearchParam) : RunResult (SqlValue × String) :=
  match param with
  | .name name =>
    match findCol row name with
    | none => .fatal "invalid column name"
    | some col =>
      let val_title :=
        match tryGetDisplay row name with
        | .ok v => v
        | .error e => e
      if col.ty = .text then
        match getOptString row name with
        | .fatal m => .fatal m
        | .err m => .err m
        | .ok v => .ok (.optStr v, val_title)
      else if col.ty = .int4 then
        match getOptI32 row name with
        | .fatal m => .fatal m
        | .err m => .err m
        | .ok v => .ok (.optI4 v, val_title)
      else .fatal "not yet implemented"
  | .jsonPath (col_name, path) =>
    let col_value_title :=
      match tryGetDisplay row col_name with
      | .ok v => v
      | .error e => e
    match withContext "error parsing value as JSON" (tryGetJson row col_name) with
    | .error e => .err e
    | .ok col_value =>
      match withContext "error dereferencing value" (jsonQuery col_value path) with
      | .error e => .err e
      | .ok results =>
        let title_item := path ++ "=" ++ col_value_title
        match target_param.ty with
        | some .Integer =>
          match extract_single_value results with
          | .error e => .err e
          | .ok v =>
            match v.asI64 with
            | none =>
              .err ("dereferenced value " ++ (results.head?.map Json.debugStr).getD ""
                ++ " is not a number")
            | some n =>
              if -(2 ^ 31) ≤ n ∧ n ≤ 2 ^ 31 - 1 then .ok (.scalar (.i4 n), title_item)
              else
                .err ("integer values overflows target type: "
                  ++ (results.head?.map Json.debugStr).getD "")
        | some .TextArray =>
          match collectE
              (fun v =>
                match v.asStr with
                | some s => .ok s
                | none =>
                  .error ("dereferenced value " ++ v.debugStr ++ " is not a string"))
              results with
          | .error e => .err e
          | .ok strs => .ok (.arr (strs.map .str), title_item)
        | none =>
          match extract_single_value results with
          | .error e => .err e
          | .ok v =>
            match v.asStr with
            | some s => .ok (.scalar (.str s), title_item)
            | none =>
              .err ("dereferenced value " ++ (results.head?.map Json.debugStr).getD ""
                ++ " is not a string")

/-- The parameter/title loop of `on_pick_link_helper` over the zipped
(column expression, target parameter) pairs. -/
def pickLoop (row : Row) : List (Model.ColumnExpression × Model.SearchParam) →
    Nat → String → List SqlValue → RunResult (String × List SqlValue)
  | [], _, title, acc => .ok (title, acc)
  | (param, target_param) :: rest, idx, title, acc =>
    match pickParam row param target_param with
    | .fatal m => .fatal m
    | .err m => .err m
    | .ok (param_value, title_item) =>
      let title := title ++ (if idx > 0 then ", " else "") ++ title_item
      pickLoop row rest (idx + 1) title (acc ++ [param_value])

/-- The body of `on_pick_link_helper` once the catalog lookups are done: it
consumes only the fields listed here (in particular never the link's
condition). -/
def pickCore (db : Db) (row : Row) (r_name link_name kind : String)
    (search_params : List Model.ColumnExpression) (link_search : Model.Search) :
    RunResult (String × String × List Row) :=
  match pickLoop row (search_params.zip link_search.params) 0 (r_name ++ " (") [] with
  | .fatal m => .fatal m
  | .err m => .err m
  | .ok (title, param_values) =>
    let title := title ++ ") → " ++ link_name
    match db link_search.query param_values with
    | .error e => .err ("error running SQL query: " ++ e)
    | .ok rows => .ok (kind, title, rows)

/-- `tui.rs` — `on_pick_link_helper`: resolve a chosen link against the
current row — look up source resource, link, target resource and target
search (absences panic: load-time validation rules them out), build the
bound parameters and title, run the target search, and return the target
resource id, title and rows. -/
def on_pick_link_helper (db : Db) (resources : List (String × Model.Resource))
    (resource_id link_name : String) (row : Row) :
    RunResult (String × String × List Row) :=
  match lookupA resources resource_id with
  | none => .fatal "invalid resource id"
  | some r =>
    match lookupA r.links link_name with
    | none => .fatal "invalid link name"
    | some link =>
      match lookupA resources link.kind with
      | none => .fatal "invalid link kind"
      | some link_target_resource =>
        match lookupA link_target_resource.search link.search with
        | none => .fatal "invalid link search name"
        | some link_search =>
          pickCore db row r.name link_name link.kind link.search_params link_search

def insertSorted (s : String) : List String → List String
  | [] => [s]
  | x :: xs => if s ≤ x then s :: x :: xs else x :: insertSorted s xs

/-- `SelectView::sort_by_label`. -/
def sortStrings : List String → List String
  | [] => []
  | x :: xs => insertSorted x (sortStrings xs)

/-- `tui.rs` — `build_link_picker`: the labels offered are exactly the keys
of the resource's `links` map, sorted; the links' conditions are never
consulted. -/
def linkPickerLabels (resources : List (String × Model.Resource))
    (resource_id : String) : RunResult (List String) :=
  match lookupA resources resource_id with
  | none => .fatal "invalid resource id"
  | some r => .ok (sortStrings (r.links.map Prod.fst))

/-- Replace the `if` condition of one named link of one named resource,
leaving everything else untouched. -/
def setLinkCondition (resources : List (String × Model.Resource))
    (rid lname : String) (c : Option Model.LinkCondition) :
    List (String × Model.Resource) :=
  resources.map fun kv =>
    (kv.1,
      if kv.1 = rid then
        { kv.2 with
          links := kv.2.links.map fun nl =>
            (nl.1, if nl.1 = lname then { nl.2 with condition := c } else nl.2) }
      else kv.2)

/-! ## Auxiliary definitions used by the theorems -/

def strStarts : List Char → List Char → Bool
  | _, [] => true
  | [], _ :: _ => false
  | a :: as, b :: bs => a == b && strStarts as bs

def strHasSub : List Char → List Char → Bool
  | [], n => n.isEmpty
  | a :: as, n => strStarts (a :: as) n || strHasSub as n

/-- Whether `needle` occurs as a contiguous substring of `hay`. -/
def strContains (hay needle : String) : Bool := strHasSub hay.toList needle.toList

/-- The title fragment `on_query_helper`'s loop produces for the remaining
(parameter, input) pairs starting at position `idx`. -/
def titleTail : Nat → List (Model.SearchParam × String) → String
  | _, [] => ""
  | idx, (p, sv) :: rest =>
    (if idx > 0 then ", " else "") ++ p.name ++ "=" ++ sv ++ titleTail (idx + 1) rest

/-- A configuration whose only invariant violation besides its empty
resource identifier is a link arity mismatch: the link `bad` supplies 0
parameters to a 1-parameter search. -/
def c4TargetSearch : Model.Search := { query := "q", params := [{ name := "p", ty := none }] }

def c4TargetRes : Model.Resource :=
  { name := "Target", search := [("s", c4TargetSearch)], links := [] }

def c4BadLink : Model.Link :=
  { kind := "t", search := "s", search_params := [], condition := none }

def c4EmptyRes : Model.Resource :=
  { name := "Empty", search := [], links := [("bad", c4BadLink)] }

def c4BadResources : List (String × Model.Resource) :=
  [("t", c4TargetRes), ("", c4EmptyRes)]

/-- A well-formed single-resource catalog whose link uses JSONPath
expressions both in its `search_params` and in its `if` condition. -/
def c8GoodResources : List (String × Model.Resource) :=
  [("a",
    { name := "A",
      search := [("s", { query := "q", params := [{ name := "p", ty := none }] })],
      links :=
        [("l",
          { kind := "a", search := "s",
            search_params := [.jsonPath ("payload", "$.x")],
            condition := some (.eq (.jsonPath ("payload", "$.y")) "v") })] })]

/-- The catalog of the spec's end-to-end link scenario: resource `order`
with a link `customer` feeding the target's one-`integer`-parameter search
`by_id` from the row's `customer_id` column. -/
def c7ByIdSearch : Model.Search :=
  { query := "SELECT * FROM customers WHERE id = $1",
    params := [{ name := "id", ty := some .Integer }] }

def c7Resources : List (String × Model.Resource) :=
  [("order",
    { name := "order",
      search := [("by_id", { query := "SELECT * FROM orders WHERE id = $1",
                             params := [{ name := "id", ty := some .Integer }] })],
      links :=
        [("customer",
          { kind := "customer", search := "by_id",
            search_params := [.name "customer_id"], condition := none })] }),
   ("customer",
    { name := "customer",
      search := [("by_id", c7ByIdSearch)],
      links := [] })]

/-- The row of the end-to-end scenario: an `int4` column `customer_id`
holding 42. -/
def c7Row : Row :=
  [{ name := "customer_id", ty := .int4, cell := some (.i4 42) }]

/-- A one-search catalog for exercising `on_query_helper`: one declared
`integer` parameter named `id`. -/
def c5Search : Model.Search :=
  { query := "SELECT 1 WHERE $1 = $1",
    params := [{ name := "id", ty := some .Integer }] }

def c5R : Model.Resource := { name := "R", search := [("s", c5Search)], links := [] }

def c5Resources : List (String × Model.Resource) := [("r", c5R)]

/-- A database stub that returns no rows for every query. -/
def dbEmpty : Db := fun _ _ => .ok []

/-! ## General lemmas -/

theorem withContext_ok {α : Type} (ctx : String) (x : Except String α) (a : α)
    (h : withContext ctx x = .ok a) : x = .ok a := by
  cases x with
  | ok b => simpa [withContext] using h
  | error e => simp [withContext] at h

theorem collectParsed_none_iff {α : Type} (f : String → Option α) (l : List String) :
    collectParsed f l = none ↔ ∃ e ∈ l, f e = none := by
  induction l with
  | nil => simp [collectParsed]
  | cons s rest ih =>
    cases hf : f s with
    | none => simp [collectParsed, hf]
    | some v =>
      cases hr : collectParsed f rest with
      | none => simp [collectParsed, hf, hr, ih.mp hr]
      | some vs =>
        simp only [collectParsed, hf, hr, Option.map_some']
        constructor
        · intro h; cases h
        · rintro ⟨e, he, hfe⟩
          cases he with
          | head => rw [hfe] at hf; cases hf
          | tail _ htail =>
            have : collectParsed f rest = none := ih.mpr ⟨e, htail, hfe⟩
            rw [this] at hr; cases hr

theorem collectParsed_some_forall₂ {α : Type} (f : String → Option α) :
    ∀ (l : List String) (vs : List α), collectParsed f l = some vs →
      List.Forall₂ (fun e v => f e = some v) l vs := by
  intro l
  induction l with
  | nil => intro vs h; simp [collectParsed] at h; simp [← h]
  | cons s rest ih =>
    intro vs h
    cases hf : f s with
    | none => simp [collectParsed, hf] at h
    | some v =>
      cases hr : collectParsed f rest with
      | none => simp [collectParsed, hf, hr] at h
      | some ws =>
        simp only [collectParsed, hf, hr, Option.map_some', Option.some.injEq] at h
        subst h
        exact List.Forall₂.cons hf (ih ws hr)

theorem collectParsed_total {α : Type} (f : String → α) (l : List String) :
    collectParsed (fun e => some (f e)) l = some (l.map f) := by
  induction l with
  | nil => rfl
  | cons s rest ih => simp [collectParsed, ih]

theorem collectE_ok_length {α β : Type} (f : α → Except String β) :
    ∀ (l : List α) (bs : List β), collectE f l = .ok bs → bs.length = l.length := by
  intro l
  induction l with
  | nil => intro bs h; simp [collectE] at h; simp [← h]
  | cons a rest ih =>
    intro bs h
    cases hf : f a with
    | error e => simp [collectE, hf] at h
    | ok b =>
      cases hr : collectE f rest with
      | error e => simp [collectE, hf, hr] at h
      | ok cs =>
        simp only [collectE, hf, hr, Except.ok.injEq] at h
        subst h
        simp [ih cs hr]

/-! ## C10 — null cells always decode to `"<NULL>"` -/

/-- C10: for every database column type — including `other` types that have
no decode rule and whose non-null cells produce the "unsupported type"
error — a null cell decodes to the literal `"<NULL>"`: in
`SQLValueAsString::from_sql_nullable` the null check precedes the type
dispatch, so decoding a null cell never fails and never yields the
unsupported-type error. -/
theorem c10_null_decodes_to_null_sentinel :
    ∀ ty : PgType,
      SQLValueAsString.from_sql_nullable ty none = .ok "<NULL>" ∧
      ∀ (name : String) (raw : PgValue),
        SQLValueAsString.from_sql (.other name) raw = .error ("unsupported type: " ++ name) := by
  intro ty
  exact ⟨rfl, fun name raw => rfl⟩

/-! ## C2 — the SearchParamType vocabulary -/

/-- C2 counterexample: the claim says every type of the full scalar/array
vocabulary is a constructor of the `SearchParamType` enumeration used by the
engine with no other constructor; but the enumeration declared in `model.rs`
(the one `tui.rs` dispatches on) has exactly 2 constructors, while the
vocabulary `to_sql.rs` dispatches over has 23. -/
theorem c2_model_enum_has_two_constructors :
    Fintype.card Model.SearchParamType = 2 ∧ Fintype.card ToSql.SearchParamType = 23 := by
  constructor <;> decide

/-- C2 (amended): the data-model enumeration `SearchParamType` has exactly
the two constructors `Integer` and `TextArray`; the conversion module
`to_sql.rs` instead dispatches exhaustively over a 23-tag vocabulary that
partitions into scalars and arrays, where every array tag has a scalar
element type and every scalar except `Json` is some array tag's element type
(the single `JsonbArray` tag serves both JSON kinds). -/
theorem c2_vocabulary_structure :
    Fintype.card Model.SearchParamType = 2 ∧
    Fintype.card ToSql.SearchParamType = 23 ∧
    (∀ t : ToSql.SearchParamType, ToSql.isScalarTy t = !(ToSql.isArrayTy t)) ∧
    (∀ t : ToSql.SearchParamType, ToSql.isArrayTy t = true ↔ (ToSql.elemTy t).isSome) ∧
    (∀ t : ToSql.SearchParamType, ToSql.isScalarTy t = true →
      t = .Json ∨ ∃ a : ToSql.SearchParamType, ToSql.elemTy a = some t) := by
  refine ⟨by decide, by decide, by decide, by decide, by decide⟩

/-! ## C3 — JSON cardinality check for scalar target types -/

theorem extract_single_value_len_ne (vals : List Json) (h : vals.length ≠ 1) :
    extract_single_value vals = .error ("expected 1 result, got " ++ toString vals.length) := by
  match vals with
  | [] => rfl
  | [v] => exact absurd rfl h
  | a :: b :: t => rfl

/-- C3: for every scalar target type, `sql_value_from_json_slice` on a node
sequence of length ≠ 1 always fails with the cardinality error naming the
actual count (and the expected count 1); on a single node the cardinality
check passes and the result is exactly the scalar narrowing of that node. -/
theorem c3_scalar_json_cardinality :
    ∀ ty : ToSql.SearchParamType, ToSql.isScalarTy ty = true →
      (∀ vals : List Json, vals.length ≠ 1 →
        sql_value_from_json_slice vals ty =
          .err ("expected 1 result, got " ++ toString vals.length)) ∧
      (∀ v : Json, sql_value_from_json_slice [v] ty = scalarFromJson ty v) := by
  intro ty hscalar
  constructor
  · intro vals hlen
    have hx := extract_single_value_len_ne vals hlen
    cases ty <;>
      first
      | (exact absurd hscalar (by decide))
      | simp [sql_value_from_json_slice, hx]
  · intro v
    cases ty <;>
      first
      | (exact absurd hscalar (by decide))
      | rfl

/-- C3 witness: at the scalar type `int4`, 0 nodes and 2 nodes fail with the
counting error, and a single node is narrowed to the bound `i32`. -/
theorem c3_scalar_json_cardinality_witness :
    ToSql.isScalarTy ToSql.SearchParamType.Int4 = true ∧
    sql_value_from_json_slice [] ToSql.SearchParamType.Int4 =
      .err "expected 1 result, got 0" ∧
    sql_value_from_json_slice [Json.num 5, Json.num 6] ToSql.SearchParamType.Int4 =
      .err "expected 1 result, got 2" ∧
    sql_value_from_json_slice [Json.num 5] ToSql.SearchParamType.Int4 =
      .ok (.scalar (.i4 5)) := by
  refine ⟨rfl, ?_, ?_, ?_⟩
  · exact (c3_scalar_json_cardinality ToSql.SearchParamType.Int4 rfl).1 [] (by decide)
  · exact (c3_scalar_json_cardinality ToSql.SearchParamType.Int4 rfl).1
      [Json.num 5, Json.num 6] (by decide)
  · rw [(c3_scalar_json_cardinality ToSql.SearchParamType.Int4 rfl).2 (Json.num 5)]
    rfl

/-! ## C1 — the empty string under numeric types -/

/-- C1 counterexample: the claim says converting `""` for a numeric array
type yields a zero-length array and not an error; in fact `str::split(',')`
on the empty string yields one empty field, whose numeric parse fails, so
the conversion is an error for `int4[]` exactly as for scalar `int4`. -/
theorem c1_empty_string_int4_array_errors :
    sql_value_from_string "" ToSql.SearchParamType.Int4Array =
      .error "error parsing value as int4[]: " ∧
    sql_value_from_string "" ToSql.SearchParamType.Int4 =
      .error "error parsing value as int4: " :=
  ⟨rfl, rfl⟩

/-- C1 (amended): converting `""` is a parameter error for every numeric
target type, array types included — the empty input splits into a single
empty field whose scalar parse fails (it does not yield a zero-length
array). -/
theorem c1_empty_string_numeric_error :
    ∀ ty : ToSql.SearchParamType, ToSql.isNumeric ty = true →
      sql_value_from_string "" ty =
        .error ("error parsing value as " ++ ToSql.tyTag ty ++ ": ") := by
  intro ty h
  cases ty <;> first | rfl | exact absurd h (by decide)

/-- C1 witness: instantiated at `int4[]` (and the hypothesis discharged by
computation). -/
theorem c1_empty_string_numeric_error_witness :
    ToSql.isNumeric ToSql.SearchParamType.Int4Array = true ∧
    sql_value_from_string "" ToSql.SearchParamType.Int4Array =
      .error ("error parsing value as " ++ ToSql.tyTag ToSql.SearchParamType.Int4Array ++ ": ") :=
  ⟨rfl, c1_empty_string_numeric_error ToSql.SearchParamType.Int4Array rfl⟩

/-! ## C6 — comma-splitting array conversion -/

/-- Every scalar arm of `sql_value_from_string` is its type's scalar parser
followed by the uniform wrapping/error-message schema. -/
theorem scalar_arm_eq (ety : ToSql.SearchParamType) (h : ToSql.isScalarTy ety = true)
    (e : String) :
    sql_value_from_string e ety =
      match scalarParse ety e with
      | some v => .ok (.scalar v)
      | none => .error ("error parsing value as " ++ ToSql.tyTag ety ++ ": " ++ e) := by
  cases ety with
  | Bool =>
    cases hp : parseBoolRust e <;> simp [sql_value_from_string, scalarParse, hp] <;> rfl
  | Float4 =>
    cases hp : parseFloatRust e <;> simp [sql_value_from_string, scalarParse, hp] <;> rfl
  | Float8 =>
    cases hp : parseFloatRust e <;> simp [sql_value_from_string, scalarParse, hp] <;> rfl
  | Int2 =>
    cases hp : parseI16 e <;> simp [sql_value_from_string, scalarParse, hp] <;> rfl
  | Int4 =>
    cases hp : parseI32 e <;> simp [sql_value_from_string, scalarParse, hp] <;> rfl
  | Int8 =>
    cases hp : parseI64 e <;> simp [sql_value_from_string, scalarParse, hp] <;> rfl
  | Json =>
    cases hp : serdeFromStr e <;> simp [sql_value_from_string, scalarParse, hp] <;> rfl
  | Jsonb =>
    cases hp : serdeFromStr e <;> simp [sql_value_from_string, scalarParse, hp] <;> rfl
  | Text => rfl
  | Varchar => rfl
  | Timestamptz =>
    by_cases hp : isTimestampLit e = true <;>
      simp [sql_value_from_string, scalarParse, hp] <;> rfl
  | Uuid =>
    by_cases hp : isUuidLit e = true <;>
      simp [sql_value_from_string, scalarParse, hp] <;> rfl
  | BoolArray => exact absurd h (by decide)
  | Float4Array => exact absurd h (by decide)
  | Float8Array => exact absurd h (by decide)
  | Int2Array => exact absurd h (by decide)
  | Int4Array => exact absurd h (by decide)
  | Int8Array => exact absurd h (by decide)
  | JsonbArray => exact absurd h (by decide)
  | TextArray => exact absurd h (by decide)
  | TimestamptzArray => exact absurd h (by decide)
  | UuidArray => exact absurd h (by decide)
  | VarcharArray => exact absurd h (by decide)

/-- Every array arm of `sql_value_from_string` is: split the input on
commas, run the element type's scalar parser over every field, and wrap
success/failure with the uniform schema (the failure message echoing the
whole input and the array type's tag). -/
theorem array_arm_eq (ty ety : ToSql.SearchParamType) (h : ToSql.elemTy ty = some ety)
    (s : String) :
    sql_value_from_string s ty =
      match collectParsed (scalarParse ety) (splitComma s) with
      | some vs => .ok (.arr vs)
      | none => .error ("error parsing value as " ++ ToSql.tyTag ty ++ ": " ++ s) := by
  cases ty <;> simp only [ToSql.elemTy, Option.some.injEq, reduceCtorEq] at h <;> subst h
  case BoolArray => rfl
  case Float4Array => rfl
  case Float8Array => rfl
  case Int2Array => rfl
  case Int4Array => rfl
  case Int8Array => rfl
  case JsonbArray => rfl
  case TimestamptzArray => rfl
  case UuidArray => rfl
  case TextArray =>
    show _ = match collectParsed (fun e => some (SqlScalar.str e)) (splitComma s) with
      | some vs => Except.ok (SqlValue.arr vs)
      | none => Except.error ("error parsing value as " ++ ToSql.tyTag .TextArray ++ ": " ++ s)
    rw [collectParsed_total SqlScalar.str]
    rfl
  case VarcharArray =>
    show _ = match collectParsed (fun e => some (SqlScalar.str e)) (splitComma s) with
      | some vs => Except.ok (SqlValue.arr vs)
      | none => Except.error ("error parsing value as " ++ ToSql.tyTag .VarcharArray ++ ": " ++ s)
    rw [collectParsed_total SqlScalar.str]
    rfl

theorem scalar_conv_not_ok_iff (ety : ToSql.SearchParamType)
    (h : ToSql.isScalarTy ety = true) (e : String) :
    (sql_value_from_string e ety).isOk = false ↔ scalarParse ety e = none := by
  rw [scalar_arm_eq ety h e]
  cases hp : scalarParse ety e <;> simp [Except.isOk, Except.toBool]

/-- C6 counterexample: the claim says a failing element makes the whole
conversion fail "with an error reporting the offending substring and the
target element type"; the code's error instead echoes the entire input
string and names the target array type — here the failing element is `"x"`
(it fails the scalar `int4` parse) but the message is
`error parsing value as int4[]: 1,x,3`, which neither isolates `x` nor names
the scalar element type. -/
theorem c6_array_error_echoes_whole_input :
    sql_value_from_string "1,x,3" ToSql.SearchParamType.Int4Array =
      .error "error parsing value as int4[]: 1,x,3" ∧
    sql_value_from_string "x" ToSql.SearchParamType.Int4 =
      .error "error parsing value as int4: x" :=
  ⟨rfl, rfl⟩

/-- C6 (amended): text-to-parameter conversion for every array target type
splits the input on commas and parses every field independently with the
element type's scalar parser; the conversion fails exactly when some field
fails its scalar parse, and then the error echoes the whole input string and
the target array type's tag; on success the array has exactly one element
per comma-separated field (so a fully parseable `"a,b,c"` yields 3
elements), each the scalar conversion of its field. -/
theorem c6_array_conversion_splits_on_commas :
    ∀ ty ety : ToSql.SearchParamType, ToSql.elemTy ty = some ety →
      ∀ s : String,
        ((sql_value_from_string s ty =
            .error ("error parsing value as " ++ ToSql.tyTag ty ++ ": " ++ s)) ↔
          ∃ e ∈ splitComma s, (sql_value_from_string e ety).isOk = false) ∧
        (∀ vs, sql_value_from_string s ty = .ok (.arr vs) →
          vs.length = (splitComma s).length ∧
          ∀ (i : Nat) (h1 : i < (splitComma s).length) (h2 : i < vs.length),
            sql_value_from_string ((splitComma s).get ⟨i, h1⟩) ety =
              .ok (.scalar (vs.get ⟨i, h2⟩))) ∧
        ((∃ vs, sql_value_from_string s ty = .ok (.arr vs)) ∨
          sql_value_from_string s ty =
            .error ("error parsing value as " ++ ToSql.tyTag ty ++ ": " ++ s)) := by
  intro ty ety h s
  have hety : ToSql.isScalarTy ety = true := by
    cases ty <;> simp only [ToSql.elemTy, Option.some.injEq, reduceCtorEq] at h <;>
      subst h <;> decide
  have harr := array_arm_eq ty ety h s
  refine ⟨?_, ?_, ?_⟩
  · rw [harr]
    cases hc : collectParsed (scalarParse ety) (splitComma s) with
    | none =>
      simp only [true_iff]
      obtain ⟨e, he, hfe⟩ := (collectParsed_none_iff (scalarParse ety) (splitComma s)).mp hc
      exact ⟨e, he, (scalar_conv_not_ok_iff ety hety e).mpr hfe⟩
    | some vs =>
      simp only [reduceCtorEq, false_iff]
      rintro ⟨e, he, hfe⟩
      have : collectParsed (scalarParse ety) (splitComma s) = none :=
        (collectParsed_none_iff (scalarParse ety) (splitComma s)).mpr
          ⟨e, he, (scalar_conv_not_ok_iff ety hety e).mp hfe⟩
      rw [this] at hc; cases hc
  · intro vs hvs
    rw [harr] at hvs
    cases hc : collectParsed (scalarParse ety) (splitComma s) with
    | none => rw [hc] at hvs; cases hvs
    | some ws =>
      rw [hc] at hvs
      have hws : ws = vs := by simpa using hvs
      subst hws
      have hfa := collectParsed_some_forall₂ (scalarParse ety) (splitComma s) ws hc
      obtain ⟨hlen, hget⟩ := List.forall₂_iff_get.mp hfa
      refine ⟨hlen.symm, ?_⟩
      intro i h1 h2
      rw [scalar_arm_eq ety hety, hget i h1 h2]
  · rw [harr]
    cases hc : collectParsed (scalarParse ety) (splitComma s) with
    | none => exact Or.inr rfl
    | some vs => exact Or.inl ⟨vs, rfl⟩

/-- C6 witness: at `text[]` (whose scalar parser never fails), `"a,b,c"`
converts to a 3-element array. -/
theorem c6_array_conversion_splits_on_commas_witness :
    ∃ vs, sql_value_from_string "a,b,c" ToSql.SearchParamType.TextArray = .ok (.arr vs) ∧
      vs.length = 3 := by
  have hres : sql_value_from_string "a,b,c" ToSql.SearchParamType.TextArray =
      .ok (.arr [.str "a", .str "b", .str "c"]) := rfl
  refine ⟨_, hres, ?_⟩
  have h := ((c6_array_conversion_splits_on_commas ToSql.SearchParamType.TextArray
      ToSql.SearchParamType.Text rfl "a,b,c").2.1 _ hres).1
  exact h.trans (by rfl)

/-! ## C4 — link arity validation -/

theorem validate_resource_links_ok (all : List (String × Model.Resource)) :
    ∀ links, validate_resource_links all links = .ok () →
      ∀ p ∈ links, validate_resource_link all p.2 = .ok () := by
  intro links
  induction links with
  | nil => intro h p hp; cases hp
  | cons nl rest ih =>
    obtain ⟨n, l⟩ := nl
    intro h p hp
    cases hv : validate_resource_link all l with
    | error e => simp [validate_resource_links, withContext, hv] at h
    | ok u =>
      cases u
      have h' : validate_resource_links all rest = .ok () := by
        simpa [validate_resource_links, withContext, hv] using h
      cases hp with
      | head => exact hv
      | tail _ ht => exact ih h' p ht

theorem validate_resources_go_ok (all : List (String × Model.Resource)) :
    ∀ l used, validate_resources_go all l used = .ok () →
      ∀ p ∈ l, validate_resource_links all p.2.links = .ok () := by
  intro l
  induction l with
  | nil => intro used h p hp; cases hp
  | cons hd rest ih =>
    obtain ⟨id, r⟩ := hd
    intro used h p hp
    by_cases h1 : id = ""
    · simp [validate_resources_go, h1] at h
    by_cases h2 : r.name = ""
    · simp [validate_resources_go, h1, h2] at h
    cases h3 : lookupA used r.name with
    | some other => simp [validate_resources_go, h1, h2, h3] at h
    | none =>
      cases h4 : validate_resource_links all r.links with
      | error e => simp [validate_resources_go, h1, h2, h3, withContext, h4] at h
      | ok u =>
        cases u
        have h' : validate_resources_go all rest ((r.name, id) :: used) = .ok () := by
          simpa [validate_resources_go, h1, h2, h3, withContext, h4] using h
        cases hp with
        | head => exact h4
        | tail _ ht => exact ih _ h' p ht

theorem validate_resource_link_arity_error (all : List (String × Model.Resource))
    (link : Model.Link) (tr : Model.Resource) (ts : Model.Search)
    (h1 : lookupA all link.kind = some tr)
    (h2 : lookupA tr.search link.search = some ts)
    (h3 : ts.params.length ≠ link.search_params.length) :
    validate_resource_link all link =
      .error ("referenced search " ++ link.search ++ " has "
        ++ toString ts.params.length ++ " params but link specifies "
        ++ toString link.search_params.length) := by
  simp [validate_resource_link, h1, h2, h3]

/-- C4 (amended): any configuration containing a link whose `search_params`
arity differs from its target search's `params` arity always fails catalog
load with a configuration error; the per-link validation error for that link
names the mismatch (search name, expected and actual counts) — but if a
different invariant violation elsewhere in the configuration fails first
(e.g. an empty resource identifier), the load error reports that violation
instead of identifying the link. -/
theorem c4_arity_mismatch_fails_load :
    ∀ (resources : List (String × Model.Resource)) (rid : String) (r : Model.Resource)
      (lname : String) (link : Model.Link) (tr : Model.Resource) (ts : Model.Search),
      (rid, r) ∈ resources → (lname, link) ∈ r.links →
      lookupA resources link.kind = some tr →
      lookupA tr.search link.search = some ts →
      ts.params.length ≠ link.search_params.length →
      (∃ e, validate_resources resources = .error e) ∧
      validate_resource_link resources link =
        .error ("referenced search " ++ link.search ++ " has "
          ++ toString ts.params.length ++ " params but link specifies "
          ++ toString link.search_params.length) := by
  intro resources rid r lname link tr ts hr hl h1 h2 h3
  have herr := validate_resource_link_arity_error resources link tr ts h1 h2 h3
  refine ⟨?_, herr⟩
  cases hv : validate_resources resources with
  | error e => exact ⟨e, rfl⟩
  | ok u =>
    cases u
    have hv' : validate_resources_go resources resources [] = .ok () := hv
    have hlinks := validate_resources_go_ok resources resources [] hv' (rid, r) hr
    have hlink := validate_resource_links_ok resources r.links hlinks (lname, link) hl
    rw [herr] at hlink
    cases hlink

/-- C4 counterexample: in `c4BadResources` the link `bad` supplies 0
parameters to a 1-parameter search, yet the load error is
`"resource identifiers can't be empty"` (the offending resource's empty
identifier fails first, whichever resource is visited first), a message that
does not identify the link — refuting the claim that load always fails with
an error naming the offending link. -/
theorem c4_load_error_can_omit_link_name :
    validate_resources c4BadResources = .error "resource identifiers can't be empty" ∧
    lookupA c4BadResources "" = some c4EmptyRes ∧
    lookupA c4EmptyRes.links "bad" = some c4BadLink ∧
    lookupA c4BadResources c4BadLink.kind = some c4TargetRes ∧
    lookupA c4TargetRes.search c4BadLink.search = some c4TargetSearch ∧
    c4TargetSearch.params.length = 1 ∧
    c4BadLink.search_params.length = 0 ∧
    strContains "resource identifiers can't be empty" "bad" = false :=
  ⟨rfl, rfl, rfl, rfl, rfl, rfl, rfl, rfl⟩

/-- C4 witness: the amended theorem applied to `c4BadResources` and its
mismatched link. -/
theorem c4_arity_mismatch_fails_load_witness :
    ("", c4EmptyRes) ∈ c4BadResources ∧
    ("bad", c4BadLink) ∈ c4EmptyRes.links ∧
    (∃ e, validate_resources c4BadResources = .error e) := by
  refine ⟨by decide, by decide, ?_⟩
  exact (c4_arity_mismatch_fails_load c4BadResources "" c4EmptyRes "bad" c4BadLink
    c4TargetRes c4TargetSearch (by decide) (by decide) rfl rfl (by decide)).1

/-! ## C8 — JSONPath validity after a successful load -/

theorem validate_link_paths_ok :
    ∀ (l : List Model.ColumnExpression) (idx : Nat), validate_link_paths l idx = .ok () →
      ∀ col path, Model.ColumnExpression.jsonPath (col, path) ∈ l →
        (parse_json_path path).isOk = true := by
  intro l
  induction l with
  | nil => intro idx h col path hm; cases hm
  | cons p rest ih =>
    intro idx h col path hm
    cases p with
    | name c =>
      have h' : validate_link_paths rest (idx + 1) = .ok () := h
      cases hm with
      | tail _ ht => exact ih _ h' col path ht
    | jsonPath cp =>
      obtain ⟨c, pa⟩ := cp
      cases hp : parse_json_path pa with
      | error e => simp [validate_link_paths, withContext, hp] at h
      | ok u =>
        cases u
        have h' : validate_link_paths rest (idx + 1) = .ok () := by
          simpa [validate_link_paths, withContext, hp] using h
        cases hm with
        | head => rw [hp]; rfl
        | tail _ ht => exact ih _ h' col path ht

theorem validate_resource_link_ok_paths (all : List (String × Model.Resource))
    (link : Model.Link) (h : validate_resource_link all link = .ok ()) :
    validate_link_paths link.search_params 0 = .ok () ∧
    (match link.condition with
     | some (.eq (.jsonPath (_, path)) _) => (parse_json_path path).isOk = true
     | _ => True) := by
  unfold validate_resource_link at h
  cases hk : lookupA all link.kind with
  | none => simp only [hk, reduceCtorEq] at h
  | some tr =>
    simp only [hk] at h
    cases hs : lookupA tr.search link.search with
    | none => simp only [hs, reduceCtorEq] at h
    | some ts =>
      simp only [hs] at h
      by_cases harity : ts.params.length ≠ link.search_params.length
      · rw [if_pos harity] at h; cases h
      rw [if_neg harity] at h
      cases hpaths : validate_link_paths link.search_params 0 with
      | error e => simp only [hpaths, reduceCtorEq] at h
      | ok u =>
        cases u
        simp only [hpaths] at h
        refine ⟨rfl, ?_⟩
        cases hc : link.condition with
        | none => trivial
        | some cond =>
          cases cond with
          | eq expr lit =>
            cases expr with
            | name c => trivial
            | jsonPath cp =>
              obtain ⟨c, pa⟩ := cp
              simp only [hc] at h
              have hv := withContext_ok _ _ _ h
              show (parse_json_path pa).isOk = true
              rw [hv]
              rfl

/-- C8: after a successful catalog load, every JSONPath string appearing in
any `ColumnExpression` of any link's `search_params` and in any link's
condition parses as syntactically valid JSONPath (contrapositively, a
configuration containing an invalid JSONPath in either position always fails
load). -/
theorem c8_load_ok_implies_paths_valid :
    ∀ resources : List (String × Model.Resource),
      validate_resources resources = .ok () → allLinkPathsValid resources = true := by
  intro resources h
  have hv' : validate_resources_go resources resources [] = .ok () := h
  unfold allLinkPathsValid
  rw [List.all_eq_true]
  intro kv hkv
  rw [List.all_eq_true]
  intro nl hnl
  have hlinks := validate_resources_go_ok resources resources [] hv' kv hkv
  have hlink := validate_resource_links_ok resources kv.2.links hlinks nl hnl
  obtain ⟨hpaths, hcond⟩ := validate_resource_link_ok_paths resources nl.2 hlink
  rw [Bool.and_eq_true]
  constructor
  · rw [List.all_eq_true]
    intro p hp
    cases p with
    | name c => rfl
    | jsonPath cp =>
      obtain ⟨c, pa⟩ := cp
      exact validate_link_paths_ok nl.2.search_params 0 hpaths c pa hp
  · cases hc : nl.2.condition with
    | none => rfl
    | some cond =>
      cases cond with
      | eq expr lit =>
        cases expr with
        | name c => rfl
        | jsonPath cp =>
          obtain ⟨c, pa⟩ := cp
          rw [hc] at hcond
          exact hcond

/-- C8 witness: `c8GoodResources` (JSONPaths in both a `search_params`
entry and the link condition) loads successfully, and the theorem yields
validity of all its paths. -/
theorem c8_load_ok_implies_paths_valid_witness :
    validate_resources c8GoodResources = .ok () ∧
    allLinkPathsValid c8GoodResources = true :=
  ⟨rfl, c8_load_ok_implies_paths_valid c8GoodResources rfl⟩

/-! ## C5 — atomicity of query execution w.r.t. parameter conversion -/

theorem convQueryParam_error_shape (p : Model.SearchParam) (sv m : String)
    (h : convQueryParam p sv = .error m) :
    m = "error parsing parameter " ++ p.name ++ " as string: " ++ sv := by
  unfold convQueryParam at h
  cases hty : p.ty with
  | none => simp [hty] at h
  | some t =>
    cases t with
    | Integer =>
      simp only [hty] at h
      cases hp : parseI32 sv with
      | some n => simp [hp] at h
      | none =>
        simp only [hp, Except.error.injEq] at h
        exact h.symm
    | TextArray => simp [hty] at h

theorem queryLoop_first_fail :
    ∀ (pairs : List (Model.SearchParam × String)) (i : Nat) (hi : i < pairs.length)
      (m : String),
      convQueryParam (pairs.get ⟨i, hi⟩).1 (pairs.get ⟨i, hi⟩).2 = .error m →
      (∀ (j : Nat) (hj : j < pairs.length), j < i →
        (convQueryParam (pairs.get ⟨j, hj⟩).1 (pairs.get ⟨j, hj⟩).2).isOk = true) →
      ∀ idx title acc, queryLoop pairs idx title acc = .error m := by
  intro pairs
  induction pairs with
  | nil => intro i hi; simp at hi
  | cons pr rest ih =>
    intro i hi m hfail hprev idx title acc
    obtain ⟨p, sv⟩ := pr
    cases i with
    | zero =>
      have hfail0 : convQueryParam p sv = .error m := hfail
      simp [queryLoop, hfail0]
    | succ i' =>
      have h0 : (convQueryParam p sv).isOk = true := hprev 0 (by omega) (by omega)
      cases hv : convQueryParam p sv with
      | error e => rw [hv] at h0; simp [Except.isOk, Except.toBool] at h0
      | ok v =>
        have hi' : i' < rest.length := by simpa using hi
        have hfail' : convQueryParam (rest.get ⟨i', hi'⟩).1 (rest.get ⟨i', hi'⟩).2 =
            .error m := hfail
        have hprev' : ∀ (j : Nat) (hj : j < rest.length), j < i' →
            (convQueryParam (rest.get ⟨j, hj⟩).1 (rest.get ⟨j, hj⟩).2).isOk = true := by
          intro j hj hji
          exact hprev (j + 1) (Nat.succ_lt_succ hj) (Nat.succ_lt_succ hji)
        simp only [queryLoop, hv]
        exact ih i' hi' m hfail' hprev' _ _ _

theorem queryLoop_all_ok :
    ∀ (pairs : List (Model.SearchParam × String)) (vals : List SqlValue),
      collectE (fun pr => convQueryParam pr.1 pr.2) pairs = .ok vals →
      ∀ idx title acc,
        queryLoop pairs idx title acc = .ok (title ++ titleTail idx pairs, acc ++ vals) := by
  intro pairs
  induction pairs with
  | nil =>
    intro vals h idx title acc
    simp only [collectE, Except.ok.injEq] at h
    subst h
    simp [queryLoop, titleTail]
  | cons pr rest ih =>
    intro vals h idx title acc
    obtain ⟨p, sv⟩ := pr
    cases hv : convQueryParam p sv with
    | error e => simp [collectE, hv] at h
    | ok b =>
      cases hr : collectE (fun pr => convQueryParam pr.1 pr.2) rest with
      | error e => simp [collectE, hv, hr] at h
      | ok bs =>
        simp only [collectE, hv, hr, Except.ok.injEq] at h
        subst h
        simp only [queryLoop, hv]
        rw [ih bs hr]
        simp [titleTail, String.append_assoc, List.append_assoc]

/-- C5: in `on_query_helper`, if any parameter string fails conversion to
its declared type, the result is the parameter error naming the parameter
and the offending text, for every possible database — so the query is never
issued; and when every parameter converts, the query runs with a
fully-bound list holding exactly one value per declared parameter. -/
theorem c5_query_atomic :
    ∀ (db : Db) (resources : List (String × Model.Resource)) (rid sid : String)
      (r : Model.Resource) (s : Model.Search) (strs : List String),
      lookupA resources rid = some r →
      lookupA r.search sid = some s →
      strs.length = s.params.length →
      (∀ (i : Nat) (hi : i < (s.params.zip strs).length) (m : String),
        convQueryParam ((s.params.zip strs).get ⟨i, hi⟩).1
            ((s.params.zip strs).get ⟨i, hi⟩).2 = .error m →
        (∀ (j : Nat) (hj : j < (s.params.zip strs).length), j < i →
          (convQueryParam ((s.params.zip strs).get ⟨j, hj⟩).1
            ((s.params.zip strs).get ⟨j, hj⟩).2).isOk = true) →
        m = "error parsing parameter " ++ ((s.params.zip strs).get ⟨i, hi⟩).1.name
            ++ " as string: " ++ ((s.params.zip strs).get ⟨i, hi⟩).2 ∧
        on_query_helper db resources rid sid strs = .err m) ∧
      (∀ vals : List SqlValue,
        collectE (fun pr => convQueryParam pr.1 pr.2) (s.params.zip strs) = .ok vals →
        vals.length = s.params.length ∧
        on_query_helper db resources rid sid strs =
          match db s.query vals with
          | .ok rows =>
            .ok (r.name ++ " / " ++ sid ++ " (" ++ titleTail 0 (s.params.zip strs) ++ ")",
              rows)
          | .error e => .err ("error running SQL query: " ++ e)) := by
  intro db resources rid sid r s strs hr hs hlen
  constructor
  · intro i hi m hfail hprev
    refine ⟨convQueryParam_error_shape _ _ _ hfail, ?_⟩
    have hq := queryLoop_first_fail (s.params.zip strs) i hi m hfail hprev 0
      (r.name ++ " / " ++ sid ++ " (") []
    simp only [on_query_helper, hr, hs, hq]
  · intro vals hvals
    have hlen2 : vals.length = s.params.length := by
      have := collectE_ok_length _ (s.params.zip strs) vals hvals
      rw [this, List.length_zip, hlen, Nat.min_self]
    refine ⟨hlen2, ?_⟩
    have hq := queryLoop_all_ok (s.params.zip strs) vals hvals 0
      (r.name ++ " / " ++ sid ++ " (") []
    simp only [on_query_helper, hr, hs, hq, List.nil_append]
    cases hdb : db s.query vals with
    | ok rows => simp [String.append_assoc]
    | error e => simp

/-- C5 witness: the catalog `c5Resources` with the non-numeric input
`"abc"` for its `integer` parameter `id` produces the parameter error (for
the stub database, whose response is never consulted). -/
theorem c5_query_atomic_witness :
    on_query_helper dbEmpty c5Resources "r" "s" ["abc"] =
      .err "error parsing parameter id as string: abc" :=
  ((c5_query_atomic dbEmpty c5Resources "r" "s" c5R c5Search ["abc"] rfl rfl rfl).1
    0 (by decide) "error parsing parameter id as string: abc" rfl
    (fun j hj hji => absurd hji (Nat.not_lt_zero j))).2

/-! ## C7 — end-to-end link resolution -/

/-- C7: resolving link `customer` of resource `order` against a row whose
`int4` column `customer_id` holds 42 issues the target search's query with
exactly the single bound parameter 42 (as the nullable `i32` binding
`optI4 (some 42)`) and produces the title `"order (42) → customer"`,
whatever the database replies: the rows the database returns for that one
fully-bound parameter list become the result, and a database error is
surfaced with the query-error context. -/
theorem c7_end_to_end_link_resolution :
    ∀ db : Db,
      (∀ rows, db c7ByIdSearch.query [SqlValue.optI4 (some 42)] = .ok rows →
        on_pick_link_helper db c7Resources "order" "customer" c7Row =
          .ok ("customer", "order (42) → customer", rows)) ∧
      (∀ e, db c7ByIdSearch.query [SqlValue.optI4 (some 42)] = .error e →
        on_pick_link_helper db c7Resources "order" "customer" c7Row =
          .err ("error running SQL query: " ++ e)) := by
  intro db
  constructor
  · intro rows hdb
    show pickCore db c7Row "order" "customer" "customer"
      [Model.ColumnExpression.name "customer_id"] c7ByIdSearch = _
    unfold pickCore
    rw [show pickLoop c7Row
        ([Model.ColumnExpression.name "customer_id"].zip c7ByIdSearch.params) 0
        ("order" ++ " (") [] = .ok ("order (42", [SqlValue.optI4 (some 42)]) from rfl]
    simp [hdb]
  · intro e hdb
    show pickCore db c7Row "order" "customer" "customer"
      [Model.ColumnExpression.name "customer_id"] c7ByIdSearch = _
    unfold pickCore
    rw [show pickLoop c7Row
        ([Model.ColumnExpression.name "customer_id"].zip c7ByIdSearch.params) 0
        ("order" ++ " (") [] = .ok ("order (42", [SqlValue.optI4 (some 42)]) from rfl]
    simp [hdb]

/-- C7 witness: against the empty-result database stub the resolution
returns the target id `customer`, the title `"order (42) → customer"` and
no rows. -/
theorem c7_end_to_end_link_resolution_witness :
    on_pick_link_helper dbEmpty c7Resources "order" "customer" c7Row =
      .ok ("customer", "order (42) → customer", []) :=
  (c7_end_to_end_link_resolution dbEmpty).1 [] rfl

/-! ## C9 — runtime behaviour is independent of link conditions -/

/-- Two links that agree on everything the runtime reads (`kind`, `search`,
`search_params`) — their `condition` fields may differ. -/
def LinkAg (l₁ l₂ : Model.Link) : Prop :=
  l₁.kind = l₂.kind ∧ l₁.search = l₂.search ∧ l₁.search_params = l₂.search_params

/-- Two resources that agree except possibly on their links' conditions. -/
def ResAg (r₁ r₂ : Model.Resource) : Prop :=
  r₁.name = r₂.name ∧ r₁.search = r₂.search ∧
    List.Forall₂ (fun a b => a.1 = b.1 ∧ LinkAg a.2 b.2) r₁.links r₂.links

/-- Two catalogs that agree except possibly on link conditions. -/
def CatAg (c₁ c₂ : List (String × Model.Resource)) : Prop :=
  List.Forall₂ (fun a b => a.1 = b.1 ∧ ResAg a.2 b.2) c₁ c₂

theorem lookupA_rel {α : Type} {R : α → α → Prop} :
    ∀ {l₁ l₂ : List (String × α)},
      List.Forall₂ (fun a b => a.1 = b.1 ∧ R a.2 b.2) l₁ l₂ →
      ∀ k, (lookupA l₁ k = none ∧ lookupA l₂ k = none) ∨
        ∃ v₁ v₂, lookupA l₁ k = some v₁ ∧ lookupA l₂ k = some v₂ ∧ R v₁ v₂ := by
  intro l₁ l₂ h k
  induction h with
  | nil => exact Or.inl ⟨rfl, rfl⟩
  | cons hab htail ih =>
    rename_i a b l₁' l₂'
    obtain ⟨hk, hR⟩ := hab
    obtain ⟨ka, va⟩ := a
    obtain ⟨kb, vb⟩ := b
    have hk' : ka = kb := hk
    subst hk'
    by_cases hkey : ka = k
    · exact Or.inr ⟨va, vb, by simp [lookupA, hkey], by simp [lookupA, hkey], hR⟩
    · rcases ih with ⟨n1, n2⟩ | ⟨v₁, v₂, s1, s2, hRv⟩
      · exact Or.inl ⟨by simp [lookupA, hkey, n1], by simp [lookupA, hkey, n2]⟩
      · exact Or.inr ⟨v₁, v₂, by simp [lookupA, hkey, s1], by simp [lookupA, hkey, s2], hRv⟩

theorem forall₂_map_fst {α : Type} {R : α → α → Prop} :
    ∀ {l₁ l₂ : List (String × α)},
      List.Forall₂ (fun a b => a.1 = b.1 ∧ R a.2 b.2) l₁ l₂ →
      l₁.map Prod.fst = l₂.map Prod.fst := by
  intro l₁ l₂ h
  induction h with
  | nil => rfl
  | cons hab htail ih => simp [ih, hab.1]

theorem linkAg_refl (l : Model.Link) : LinkAg l l := ⟨rfl, rfl, rfl⟩

theorem links_forall₂_refl (links : List (String × Model.Link)) :
    List.Forall₂ (fun a b => a.1 = b.1 ∧ LinkAg a.2 b.2) links links := by
  induction links with
  | nil => exact List.Forall₂.nil
  | cons nl rest ih => exact List.Forall₂.cons ⟨rfl, linkAg_refl nl.2⟩ ih

theorem resAg_refl (r : Model.Resource) : ResAg r r :=
  ⟨rfl, rfl, links_forall₂_refl r.links⟩

theorem condMap_forall₂ (lname : String) (c₁ c₂ : Option Model.LinkCondition) :
    ∀ links : List (String × Model.Link),
      List.Forall₂ (fun a b => a.1 = b.1 ∧ LinkAg a.2 b.2)
        (links.map fun nl =>
          (nl.1, if nl.1 = lname then { nl.2 with condition := c₁ } else nl.2))
        (links.map fun nl =>
          (nl.1, if nl.1 = lname then { nl.2 with condition := c₂ } else nl.2)) := by
  intro links
  induction links with
  | nil => exact List.Forall₂.nil
  | cons nl rest ih =>
    refine List.Forall₂.cons ⟨rfl, ?_⟩ ih
    by_cases hn : nl.1 = lname
    · simp only [hn, if_pos rfl]
      exact ⟨rfl, rfl, rfl⟩
    · simp only [if_neg hn]
      exact linkAg_refl nl.2

theorem setLinkCondition_catAg (resources : List (String × Model.Resource))
    (rid lname : String) (c₁ c₂ : Option Model.LinkCondition) :
    CatAg (setLinkCondition resources rid lname c₁)
      (setLinkCondition resources rid lname c₂) := by
  unfold CatAg setLinkCondition
  induction resources with
  | nil => exact List.Forall₂.nil
  | cons kv rest ih =>
    refine List.Forall₂.cons ⟨rfl, ?_⟩ ih
    by_cases hk : kv.1 = rid
    · simp only [hk, if_pos rfl]
      exact ⟨rfl, rfl, condMap_forall₂ lname c₁ c₂ kv.2.links⟩
    · simp only [if_neg hk]
      exact resAg_refl kv.2

theorem pick_helper_rel {c₁ c₂ : List (String × Model.Resource)} (hcat : CatAg c₁ c₂)
    (db : Db) (rid lname : String) (row : Row) :
    on_pick_link_helper db c₁ rid lname row = on_pick_link_helper db c₂ rid lname row := by
  unfold on_pick_link_helper
  rcases lookupA_rel hcat rid with ⟨h1, h2⟩ | ⟨r₁, r₂, h1, h2, hres⟩
  · rw [h1, h2]
  · simp only [h1, h2]
    obtain ⟨hname, hsearch, hlinks⟩ := hres
    rcases lookupA_rel hlinks lname with ⟨g1, g2⟩ | ⟨l₁, l₂, g1, g2, hlink⟩
    · rw [g1, g2]
    · simp only [g1, g2]
      obtain ⟨hkind, hsrch, hparams⟩ := hlink
      rw [hkind]
      rcases lookupA_rel hcat l₂.kind with ⟨t1, t2⟩ | ⟨tr₁, tr₂, t1, t2, htr⟩
      · rw [t1, t2]
      · simp only [t1, t2]
        obtain ⟨_, htsearch, _⟩ := htr
        rw [hsrch, htsearch]
        cases lookupA tr₂.search l₂.search with
        | none => rfl
        | some ls => rw [hname, hparams]

theorem labels_rel {c₁ c₂ : List (String × Model.Resource)} (hcat : CatAg c₁ c₂)
    (rid : String) : linkPickerLabels c₁ rid = linkPickerLabels c₂ rid := by
  unfold linkPickerLabels
  rcases lookupA_rel hcat rid with ⟨h1, h2⟩ | ⟨r₁, r₂, h1, h2, hres⟩
  · rw [h1, h2]
  · simp only [h1, h2]
    obtain ⟨_, _, hlinks⟩ := hres
    rw [forall₂_map_fst hlinks]

/-- C9: the set of links offered by the link picker and the full result of
resolving any chosen link (target resource id, bound parameters via the
title, rows) are identical for any two values of a link's optional `if`
condition — the condition is never consulted at runtime. -/
theorem c9_link_condition_runtime_independent :
    ∀ (resources : List (String × Model.Resource)) (rid lname : String)
      (c₁ c₂ : Option Model.LinkCondition) (db : Db) (prid plname : String) (row : Row),
      linkPickerLabels (setLinkCondition resources rid lname c₁) prid =
        linkPickerLabels (setLinkCondition resources rid lname c₂) prid ∧
      on_pick_link_helper db (setLinkCondition resources rid lname c₁) prid plname row =
        on_pick_link_helper db (setLinkCondition resources rid lname c₂) prid plname row := by
  intro resources rid lname c₁ c₂ db prid plname row
  have hcat := setLinkCondition_catAg resources rid lname c₁ c₂
  exact ⟨labels_rel hcat prid, pick_helper_rel hcat db prid plname row⟩

end Dbdrill
